import Mathlib

/-!
Verification model of the File-Organizer engine
(src/enhanced_file_organizer.py and src/enhanced_file_organizer_improved.py).

The Python code is shallowly embedded: pure path/string manipulation is
translated directly; filesystem and clock effects (exists probes, getsize,
mkdir, shutil.move, datetime.now, mimetypes.guess_type) are passed in as
explicit parameters, and a raising call is modelled by an explicit Boolean
or Option outcome covering the exception classes the source catches.
Paths are POSIX style strings; pathlib.PurePath accessors (parts, parent,
name, stem, suffix) are reimplemented for slash separated paths, matching
CPython for paths without the rare special forms (leading double slash,
Windows drives).  Python float divisions by 1024 and 1024*1024 in size
comparisons are exact (division by a power of two only shifts the
exponent), so they are rendered as integer comparisons.
-/

namespace FileOrganizer

/-! ### String and path helpers (pathlib / os.path fragments used by the code).
All of them are written by structural recursion over the character list of
the string, so that every definition evaluates inside the kernel. -/

def strToLower (s : String) : String := String.mk (s.toList.map Char.toLower)

def strToUpper (s : String) : String := String.mk (s.toList.map Char.toUpper)

/-- Split a char list at a separator char (str.split semantics: n separators
produce n+1 pieces). -/
def splitChar (sep : Char) : List Char → List Char → List (List Char)
  | [], cur => [cur.reverse]
  | c :: rest, cur =>
      if c == sep then cur.reverse :: splitChar sep rest []
      else splitChar sep rest (c :: cur)

/-- p.split("/") on strings. -/
def splitOnSlash (p : String) : List String := (splitChar '/' p.toList []).map String.mk

/-- Python str.startswith. -/
def prefixOfB : List Char → List Char → Bool
  | [], _ => true
  | _ :: _, [] => false
  | a :: as, b :: bs => a == b && prefixOfB as bs

def strStartsWith (s pre : String) : Bool := prefixOfB pre.toList s.toList

/-- Python substring containment `needle in hay` on char lists. -/
def substrB (n : List Char) : List Char → Bool
  | [] => n.isEmpty
  | c :: t => prefixOfB n (c :: t) || substrB n t

/-- Python `needle in hay` on strings. -/
def strContains (needle hay : String) : Bool := substrB needle.toList hay.toList

/-- str.join with a separator. -/
def joinWith (sep : String) : List String → String
  | [] => ""
  | [x] => x
  | x :: rest => x ++ sep ++ joinWith sep rest

/-- Components of a POSIX path as produced by pathlib.PurePosixPath(p).parts:
empty and single-dot segments are dropped, an absolute path contributes a
leading "/" part. -/
def pathParts (p : String) : List String :=
  let comps := (splitOnSlash p).filter (fun c => !(c == "") && !(c == "."))
  if strStartsWith p "/" then "/" :: comps else comps

/-- pathlib.PurePosixPath(p).name. -/
def nameOf (p : String) : String :=
  (((splitOnSlash p).filter (fun c => !(c == "") && !(c == "."))).getLast?).getD ""

/-- str(pathlib.PurePosixPath(p).parent). -/
def parentOf (p : String) : String :=
  let comps := ((splitOnSlash p).filter (fun c => !(c == "") && !(c == "."))).dropLast
  if strStartsWith p "/" then
    (if comps.isEmpty then "/" else "/" ++ joinWith "/" comps)
  else
    (if comps.isEmpty then "." else joinWith "/" comps)

/-- os.path.basename: the text after the last slash, verbatim. -/
def basenameOf (p : String) : String := (((splitOnSlash p)).getLast?).getD ""

/-- Path join: str(parent / name), equal to os.path.join(parent, name) for a
relative, nonempty right operand and a parent that is not "" or ".". -/
def joinPath (p n : String) : String :=
  if p == "" || p == "." then n else if p == "/" then p ++ n else p ++ "/" ++ n

/-- Index of the last occurrence of a char (str.rfind). -/
def lastIdxOf (c : Char) (l : List Char) : Option Nat :=
  ((l.enum.filter (fun q => q.2 == c)).getLast?).map (fun q => q.1)

/-- CPython PurePath stem/suffix split of a final component: the suffix is
name[i:] for i the last dot index when 0 < i < len(name) - 1, else empty. -/
def nameSplit (nm : String) : String × String :=
  let l := nm.toList
  match lastIdxOf '.' l with
  | some i =>
      if 0 < i ∧ i < l.length - 1 then (String.mk (l.take i), String.mk (l.drop i))
      else (nm, "")
  | none => (nm, "")

/-- pathlib.PurePosixPath(p).stem. -/
def stemOf (p : String) : String := (nameSplit (nameOf p)).1

/-- pathlib.PurePosixPath(p).suffix. -/
def suffixOf (p : String) : String := (nameSplit (nameOf p)).2

/-- os.path.splitext: split off the extension of the last component; leading
dots of the basename do not start an extension. -/
def osSplitext (p : String) : String × String :=
  let l := p.toList
  match lastIdxOf '.' l with
  | none => (p, "")
  | some di =>
      let si : Nat := match lastIdxOf '/' l with | some i => i + 1 | none => 0
      if si ≤ di then
        if ((l.drop si).take (di - si)).any (fun c => !(c == '.')) then
          (String.mk (l.take di), String.mk (l.drop di))
        else (p, "")
      else (p, "")

/-- f-string 02d padding for month numbers. -/
def pad2 (n : Nat) : String := if n < 10 then "0" ++ Nat.repr n else Nat.repr n

/-- datetime.strftime("%B") month names (C locale). -/
def monthName : Nat → String
  | 1 => "January" | 2 => "February" | 3 => "March" | 4 => "April"
  | 5 => "May" | 6 => "June" | 7 => "July" | 8 => "August"
  | 9 => "September" | 10 => "October" | 11 => "November" | 12 => "December"
  | _ => ""

def titleChars : List Char → Bool → List Char
  | [], _ => []
  | c :: cs, prevAlpha =>
      if c.isAlpha then (if prevAlpha then c.toLower else c.toUpper) :: titleChars cs true
      else c :: titleChars cs false

/-- Python str.title for ASCII text. -/
def titleStr (s : String) : String := String.mk (titleChars s.toList false)

/-! ### Configuration (class Config) -/

def SYSTEM_PROTECTED : List String :=
  ["Windows", "Android", "Program Files", "System32", "System Volume Information",
   "ProgramData", "Recovery", "Boot", "$Recycle.Bin", "hiberfil.sys", "pagefile.sys"]

def SYSTEM_PROTECTED_IMPROVED : List String :=
  ["Windows", "Android", "Program Files", "Program Files (x86)",
   "System32", "System Volume Information", "ProgramData", "Recovery",
   "Boot", "$Recycle.Bin", "hiberfil.sys", "pagefile.sys", "swapfile.sys",
   "Windows.old", "Intel", "AMD", "NVIDIA"]

def JUNK_FOLDER : String := "Junk"

def system_indicators : List String :=
  ["system", "windows", "program files", "programdata", "recovery"]

/-- is_protected_path (identical body in both source files); the denylist is
the injected Config.SYSTEM_PROTECTED.  Note the first check is a substring
test of the whole lowercased path, the second a component membership test. -/
def is_protected_path (denylist : List String) (path : String) : Bool :=
  let path_lower := strToLower path
  let path_parts := pathParts path_lower
  if denylist.any (fun prot => strContains (strToLower prot) path_lower) then true
  else if system_indicators.any (fun ind => path_parts.contains ind) then true
  else false


/-! ### Category registry and classifier -/

def FILE_MAP : List (String × List (String × List String)) :=
  [("Documents",
    [("PDF", [".pdf"]),
     ("Word", [".doc", ".docx", ".dot", ".dotx", ".docm"]),
     ("PowerPoint", [".ppt", ".pptx", ".pps", ".ppsx", ".odp", ".potx"]),
     ("Excel", [".xls", ".xlsx", ".xlsm", ".csv", ".ods", ".xlsb"]),
     ("Text", [".txt", ".rtf", ".md", ".tex", ".log", ".readme", ".rst"]),
     ("eBooks", [".epub", ".mobi", ".azw3", ".djvu", ".fb2", ".lit"]),
     ("XPS", [".xps", ".oxps"]),
     ("OtherDocs", [".odt", ".abw", ".pages", ".wpd", ".wps", ".gdoc"])]),
   ("Images",
    [("JPEG", [".jpg", ".jpeg", ".jpe", ".jfif"]),
     ("PNG", [".png"]),
     ("GIF", [".gif"]),
     ("WebP", [".webp"]),
     ("BMP", [".bmp", ".dib"]),
     ("TIFF", [".tif", ".tiff"]),
     ("HEIC", [".heic", ".heif"]),
     ("RAW", [".raw", ".cr2", ".nef", ".arw", ".orf", ".sr2", ".dng", ".rw2"]),
     ("SVG", [".svg", ".svgz"]),
     ("OtherImages", [".ico", ".icns", ".ppm", ".pgm", ".pbm", ".psd", ".xcf", ".ai"])]),
   ("Videos",
    [("MP4", [".mp4", ".m4v"]),
     ("MKV", [".mkv"]),
     ("AVI", [".avi"]),
     ("MOV", [".mov", ".qt"]),
     ("WMV", [".wmv", ".asf"]),
     ("FLV", [".flv", ".f4v"]),
     ("WebM", [".webm"]),
     ("MTS", [".mts", ".m2ts", ".ts"]),
     ("3GP", [".3gp", ".3g2"]),
     ("OtherVideos", [".vob", ".mpg", ".mpeg", ".ogv", ".rmvb", ".divx", ".m2v"])]),
   ("Audio",
    [("MP3", [".mp3"]),
     ("WAV", [".wav"]),
     ("FLAC", [".flac"]),
     ("AAC", [".aac", ".m4a"]),
     ("OGG", [".ogg", ".oga"]),
     ("WMA", [".wma"]),
     ("MIDI", [".mid", ".midi"]),
     ("OtherAudio", [".opus", ".amr", ".aiff", ".au", ".ra", ".ac3", ".dts"])]),
   ("Compressed",
    [("ZIP", [".zip", ".zipx"]),
     ("RAR", [".rar", ".r00", ".r01", ".r02"]),
     ("7Z", [".7z"]),
     ("TAR", [".tar", ".tar.gz", ".tgz", ".tar.bz2", ".tar.xz"]),
     ("GZ", [".gz", ".bz2", ".xz", ".lz", ".lzma"]),
     ("ISO", [".iso", ".img", ".bin", ".cue", ".mdf"]),
     ("DMG", [".dmg"]),
     ("OtherArchives", [".cab", ".ace", ".z", ".sit", ".sitx", ".pak"])]),
   ("Executables",
    [("Windows", [".exe", ".msi", ".scr", ".com", ".bat", ".cmd"]),
     ("Linux", [".deb", ".rpm", ".run", ".sh", ".appimage", ".snap"]),
     ("Mac", [".pkg", ".dmg", ".app"]),
     ("Scripts", [".ps1", ".vbs", ".py", ".pl", ".rb"]),
     ("OtherBins", [".bin", ".out", ".elf", ".so", ".dll"])]),
   ("MobileApps",
    [("Android", [".apk", ".xapk", ".apks", ".aab"]),
     ("iOS", [".ipa"])]),
   ("Code",
    [("Python", [".py", ".pyw", ".pyx", ".pyi", ".ipynb"]),
     ("Web", [".html", ".htm", ".css", ".js", ".ts", ".jsx", ".tsx", ".vue", ".svelte"]),
     ("Java", [".java", ".jar", ".class", ".scala", ".kt"]),
     ("C_CPP", [".c", ".cpp", ".cc", ".cxx", ".h", ".hpp", ".hxx"]),
     ("Scripts", [".sh", ".bash", ".zsh", ".fish", ".csh", ".tcsh"]),
     ("Data", [".json", ".xml", ".yml", ".yaml", ".toml", ".ini", ".cfg"]),
     ("PHP", [".php", ".phtml"]),
     ("SQL", [".sql", ".db", ".sqlite", ".sqlite3"]),
     ("Other", [".rs", ".go", ".pl", ".rb", ".lua", ".cs", ".swift", ".dart", ".r"])]),
   ("System",
    [("Logs", [".log", ".trace", ".out"]),
     ("Config", [".ini", ".cfg", ".conf", ".reg", ".plist", ".settings"]),
     ("Cache", [".tmp", ".temp", ".bak", ".old", ".swp", ".swo", ".orig", ".cache"])]),
   ("Fonts",
    [("TrueType", [".ttf", ".ttc"]),
     ("OpenType", [".otf"]),
     ("Other", [".woff", ".woff2", ".eot", ".pfb", ".pfm"])]),
   ("3D_Models",
    [("Common", [".obj", ".fbx", ".dae", ".3ds", ".blend", ".max", ".ma", ".mb"]),
     ("CAD", [".dwg", ".dxf", ".step", ".stp", ".iges", ".igs"]),
     ("STL", [".stl", ".ply"])])]

def mimeCategoryMap : List (String × String) :=
  [("text", "Documents"), ("image", "Images"), ("video", "Videos"),
   ("audio", "Audio"), ("application", "Documents")]

/-- detect_mime_type.  The mimetypes.guess_type database is external input,
passed as a function returning the split mime type (main, sub) or none. -/
def detect_mime_type (guess : String → Option (String × String)) (file_path : String) :
    String × String :=
  match guess file_path with
  | none => ("Others", "Unknown")
  | some mt =>
      let category := ((mimeCategoryMap.find? (fun e => e.1 == mt.1)).map (fun e => e.2)).getD "Others"
      (category, titleStr mt.2)

def findExtInSubs : List (String × List String) → String → Option String
  | [], _ => none
  | (sub, exts) :: rest, ext =>
      if exts.contains ext then some sub else findExtInSubs rest ext

def findExtIn : List (String × List (String × List String)) → String → Option (String × String)
  | [], _ => none
  | (cat, subs) :: rest, ext =>
      match findExtInSubs subs ext with
      | some sub => some (cat, sub)
      | none => findExtIn rest ext

/-- get_file_category (identical body in both source files). -/
def get_file_category (guess : String → Option (String × String)) (file_path : String) :
    String × String :=
  let ext := strToLower (suffixOf file_path)
  if ext == "" then detect_mime_type guess file_path
  else
    match findExtIn FILE_MAP ext with
    | some cs => cs
    | none =>
        let mc := detect_mime_type guess file_path
        if !(mc.1 == "Others") then mc else ("Others", "Uncategorized")

/-- Per-file metadata captured from the filesystem before classification; the
ctime option and the sizeReadable flag model the try/except branches of the
improved get_destination_path. -/
structure FileMeta where
  size_bytes : Nat
  mtimeYear : Nat
  mtimeMonth : Nat
  ctime : Option (Nat × Nat)
  sizeReadable : Bool

inductive OrganizationMode where
  | by_type | by_date | by_size | by_extension
deriving DecidableEq, Repr

def sizeCategoryOrig (size_bytes : Nat) : String :=
  if size_bytes < 1048576 then "Small (< 1MB)"
  else if size_bytes < 10485760 then "Medium (1-10MB)"
  else if size_bytes < 104857600 then "Large (10-100MB)"
  else "Very Large (> 100MB)"

/-- The BY_EXTENSION bucket of the original get_organization_path. -/
def extBucket (file_path : String) : String :=
  let ext := strToLower (suffixOf file_path)
  if ext == "" then "NO_EXTENSION"
  else strToUpper (String.mk (ext.toList.filter (fun c => !(c == '.'))))

/-- get_organization_path (enhanced_file_organizer.py, lines 762-787). -/
def get_organization_path (guess : String → Option (String × String)) (target : String)
    (mode : OrganizationMode) (file_path : String) (meta : FileMeta) : String :=
  match mode with
  | .by_type =>
      let cs := get_file_category guess file_path
      joinPath (joinPath target cs.1) cs.2
  | .by_date =>
      joinPath (joinPath (joinPath target "By Date") (Nat.repr meta.mtimeYear))
        (pad2 meta.mtimeMonth ++ "-" ++ monthName meta.mtimeMonth)
  | .by_size => joinPath (joinPath target "By Size") (sizeCategoryOrig meta.size_bytes)
  | .by_extension => joinPath (joinPath target "By Extension") (extBucket file_path)

/-- Destination computed by process_file inside organize_files
(enhanced_file_organizer.py, lines 903-919).  file_size_kb < junk_threshold
on floats is exactly size_bytes < 1024 * junk_threshold. -/
def process_file_dest (guess : String → Option (String × String)) (junk_threshold : Nat)
    (target : String) (mode : OrganizationMode) (file_path : String) (meta : FileMeta) : String :=
  if meta.size_bytes < 1024 * junk_threshold then
    joinPath (joinPath target JUNK_FOLDER) (basenameOf file_path)
  else
    joinPath (get_organization_path guess target mode file_path meta) (basenameOf file_path)

def sizeCategoryImp (size : Nat) : String :=
  if size < 1048576 then "Small"
  else if size < 104857600 then "Medium"
  else if size < 1073741824 then "Large"
  else "Very_Large"

/-- get_destination_path (enhanced_file_organizer_improved.py, lines 499-531).
The category pair is computed unconditionally, as in the source. -/
def get_destination_path (guess : String → Option (String × String)) (target : String)
    (mode : OrganizationMode) (file_path : String) (meta : FileMeta) : String :=
  let cs := get_file_category guess file_path
  match mode with
  | .by_type => joinPath (joinPath (joinPath target cs.1) cs.2) (basenameOf file_path)
  | .by_date =>
      match meta.ctime with
      | some ym =>
          joinPath (joinPath target (Nat.repr ym.1 ++ "/" ++ pad2 ym.2 ++ "-" ++ monthName ym.2))
            (basenameOf file_path)
      | none => joinPath (joinPath target "Unknown_Date") (basenameOf file_path)
  | .by_size =>
      if meta.sizeReadable then
        joinPath (joinPath target (sizeCategoryImp meta.size_bytes)) (basenameOf file_path)
      else joinPath (joinPath target "Unknown_Size") (basenameOf file_path)
  | .by_extension =>
      let ext := strToLower (suffixOf file_path)
      let ext2 := if ext == "" then "no_extension" else ext
      joinPath (joinPath target (if strStartsWith ext2 "." then String.mk (ext2.toList.drop 1) else ext2))
        (basenameOf file_path)


/-! ### Destination resolver (generate_unique_filename / resolve_file_conflict) -/

inductive DuplicateHandling where
  | rename | skip | replace | merge_to_duplicates
deriving DecidableEq, Repr

/-- The candidate probed by the RENAME loop at a given counter:
str(parent / (stem + " (" + counter + ")" + suffix)). -/
def renameCandidate (target_path : String) (counter : Nat) : String :=
  joinPath (parentOf target_path)
    (stemOf target_path ++ " (" ++ Nat.repr counter ++ ")" ++ suffixOf target_path)

/-- The timestamp fallback returned after 1000 probes. -/
def renameFallback (target_path ts : String) : String :=
  joinPath (parentOf target_path) (stemOf target_path ++ "_" ++ ts ++ suffixOf target_path)

/-- The RENAME while-loop of generate_unique_filename: probe the counter,
return the candidate if it does not exist, otherwise advance; once the
counter passes 1000, return the timestamp fallback.  The fuel argument only
bounds the recursion; started at 1000 with counter 1 the zero-fuel branch is
unreachable because the counter check fires first. -/
def renameLoop (ex : String → Bool) (target_path ts : String) : Nat → Nat → String
  | 0, _ => renameFallback target_path ts
  | fuel + 1, counter =>
      if ex (renameCandidate target_path counter) then
        (if counter + 1 > 1000 then renameFallback target_path ts
         else renameLoop ex target_path ts fuel (counter + 1))
      else renameCandidate target_path counter

/-- generate_unique_filename (enhanced_file_organizer.py, lines 789-819).
ex is the filesystem existence probe; mergeMkdirRaises models an OSError
from the Duplicates-folder mkdir; the error value models a raised exception,
ok none the skip signal (Python None). -/
def generate_unique_filename (ex : String → Bool) (mergeMkdirRaises : Bool) (ts : String)
    (target_path : String) (dh : DuplicateHandling) : Except Unit (Option String) :=
  match dh with
  | .skip => .ok none
  | .replace => .ok (some target_path)
  | .merge_to_duplicates =>
      if mergeMkdirRaises then .error () else
        .ok (some (joinPath (joinPath (parentOf target_path) "Duplicates") (nameOf target_path)))
  | .rename => .ok (some (renameLoop ex target_path ts 1000 1))

/-- The while-loop of resolve_file_conflict
(enhanced_file_organizer_improved.py, lines 555-564): while the current
destination exists, rebuild it as base_(counter)ext and advance.  The loop
has no bound in the source; the fuel argument makes the model total. -/
def resolveLoop (ex : String → Bool) (base ext : String) : Nat → Nat → String → String
  | 0, _, dest => dest
  | fuel + 1, counter, dest =>
      if ex dest then
        resolveLoop ex base ext fuel (counter + 1) (base ++ "_(" ++ Nat.repr counter ++ ")" ++ ext)
      else dest

def resolve_file_conflict (ex : String → Bool) (destination : String) : String :=
  resolveLoop ex (osSplitext destination).1 (osSplitext destination).2 1000000 1 destination

/-! ### Move transaction engine (move_file_safe) and run state -/

structure FileOperation where
  source : String
  destination : String
  operation : String
  timestamp : String
  size_bytes : Nat
  file_hash : Option String
deriving DecidableEq, Repr

structure RunStats where
  moved : Nat
  skipped : Nat
  errors : Nat
  duplicates : Nat
  total_size : Nat
  protected_skipped : Nat
  empty_folders_removed : Nat
deriving DecidableEq, Repr

def bumpErrors (s : RunStats) : RunStats :=
  ⟨s.moved, s.skipped, s.errors + 1, s.duplicates, s.total_size,
   s.protected_skipped, s.empty_folders_removed⟩

def bumpSkipped (s : RunStats) : RunStats :=
  ⟨s.moved, s.skipped + 1, s.errors, s.duplicates, s.total_size,
   s.protected_skipped, s.empty_folders_removed⟩

def bumpMoved (s : RunStats) (size : Nat) : RunStats :=
  ⟨s.moved + 1, s.skipped, s.errors, s.duplicates, s.total_size + size,
   s.protected_skipped, s.empty_folders_removed⟩

def bumpDuplicates (s : RunStats) : RunStats :=
  ⟨s.moved, s.skipped, s.errors, s.duplicates + 1, s.total_size,
   s.protected_skipped, s.empty_folders_removed⟩

structure OrganizerState where
  operations_log : List FileOperation
  duplicate_map : List (String × List String)
  stats : RunStats
deriving DecidableEq, Repr

/-- FileOrganizer.__init__: empty journal, empty duplicate map, zero stats. -/
def initState : OrganizerState := ⟨[], [], ⟨0, 0, 0, 0, 0, 0, 0⟩⟩

/-- Python dict lookup on the insertion-ordered duplicate map. -/
def dmLookup : List (String × List String) → String → Option (List String)
  | [], _ => none
  | e :: rest, k => if e.1 == k then some e.2 else dmLookup rest k

/-- duplicate_map[k].append(v), inserting the key at the end when absent. -/
def dmInsertAppend : List (String × List String) → String → String → List (String × List String)
  | [], k, v => [(k, [v])]
  | e :: rest, k, v =>
      if e.1 == k then (e.1, e.2 ++ [v]) :: rest else e :: dmInsertAppend rest k v

/-- Python truthiness of an optional string (if file_hash:). -/
def pyTruthy : Option String → Bool
  | none => false
  | some s => !(s == "")

/-- The filesystem / clock outcomes of one move_file_safe call.  Each Bool
models whether the corresponding call raises one of the caught exception
classes (OSError, PermissionError, shutil.Error); hashResult is the value
calculate_file_hash returns (it catches its own errors and yields none). -/
structure MoveEnv where
  mkdirParentRaises : Bool
  destExists : Bool
  fsExists : String → Bool
  mergeMkdirRaises : Bool
  renameTimestamp : String
  hashResult : Option String
  sizeResult : Option Nat
  moveRaises : Bool
  opTimestamp : String

/-- The conflict-handling step of move_file_safe: generate_unique_filename is
consulted only when the destination exists. -/
def resolveConflict (env : MoveEnv) (destination : String) (dh : DuplicateHandling) :
    Except Unit (Option String) :=
  if env.destExists then
    generate_unique_filename env.fsExists env.mergeMkdirRaises env.renameTimestamp destination dh
  else .ok (some destination)

/-- move_file_safe (enhanced_file_organizer.py, lines 821-871).  Returns the
Boolean result of the Python method together with the updated organizer
state.  A raised OSError / PermissionError / shutil.Error lands in the
except clause: errors incremented, nothing else touched. -/
def move_file_safe (st : OrganizerState) (source destination : String)
    (dh : DuplicateHandling) (env : MoveEnv) : Bool × OrganizerState :=
  if env.mkdirParentRaises then
    (false, ⟨st.operations_log, st.duplicate_map, bumpErrors st.stats⟩)
  else
    match resolveConflict env destination dh with
    | .error _ => (false, ⟨st.operations_log, st.duplicate_map, bumpErrors st.stats⟩)
    | .ok none => (false, ⟨st.operations_log, st.duplicate_map, bumpSkipped st.stats⟩)
    | .ok (some dest) =>
        let file_hash := if dh = DuplicateHandling.skip then none else env.hashResult
        match env.sizeResult with
        | none => (false, ⟨st.operations_log, st.duplicate_map, bumpErrors st.stats⟩)
        | some file_size =>
            if env.moveRaises then
              (false, ⟨st.operations_log, st.duplicate_map, bumpErrors st.stats⟩)
            else
              let op : FileOperation := ⟨source, dest, "move", env.opTimestamp, file_size, file_hash⟩
              let log2 := st.operations_log ++ [op]
              let stats2 := bumpMoved st.stats file_size
              if pyTruthy file_hash then
                let h := file_hash.getD ""
                let newLen := ((dmLookup st.duplicate_map h).getD []).length + 1
                let dm2 := dmInsertAppend st.duplicate_map h dest
                (true, ⟨log2, dm2, if newLen > 1 then bumpDuplicates stats2 else stats2⟩)
              else (true, ⟨log2, st.duplicate_map, stats2⟩)

/-- Control-flow classification of a move_file_safe call: did it raise, skip
the file, or move it. -/
inductive MoveOutcome where
  | raised | skippedFile | movedFile
deriving DecidableEq, Repr

def classify_move (env : MoveEnv) (destination : String) (dh : DuplicateHandling) : MoveOutcome :=
  if env.mkdirParentRaises then .raised
  else
    match resolveConflict env destination dh with
    | .error _ => .raised
    | .ok none => .skippedFile
    | .ok (some _) =>
        match env.sizeResult with
        | none => .raised
        | some _ => if env.moveRaises then .raised else .movedFile

structure MoveJob where
  source : String
  destination : String
  dh : DuplicateHandling
  env : MoveEnv

/-- A sequence of move_file_safe calls within one run. -/
def run_moves (st : OrganizerState) (jobs : List MoveJob) : OrganizerState :=
  jobs.foldl (fun s j => (move_file_safe s j.source j.destination j.dh j.env).2) st

/-- save_duplicate_map (enhanced_file_organizer.py, lines 1163-1172): the
persisted dict keeps exactly the groups with more than one path. -/
def save_duplicate_map (m : List (String × List String)) : List (String × List String) :=
  m.filter (fun kv => kv.2.length > 1)


/-! ### Undo engine (undo_last_organization, replay loop, lines 1226-1258) -/

/-- One journal record as read back from undo.json (the fields the replay
loop uses). -/
structure UndoOp where
  source : String
  destination : String
deriving DecidableEq, Repr

/-- One iteration of the undo replay loop over a journal entry.  The
filesystem is the list of existing file paths; raises says whether the
makedirs/move of this entry raises (caught by the per-entry except).  The
accumulator carries (filesystem, undone, skipped, errors). -/
def undoStep (raises : UndoOp → Bool) (acc : List String × Nat × Nat × Nat) (opd : UndoOp) :
    List String × Nat × Nat × Nat :=
  let fs := acc.1
  let undone := acc.2.1
  let skipped := acc.2.2.1
  let errors := acc.2.2.2
  let src := opd.destination
  let dst := opd.source
  if fs.contains src then
    if fs.contains dst then (fs, undone, skipped + 1, errors)
    else if raises opd then (fs, undone, skipped, errors + 1)
    else ((fs.erase src).concat dst, undone + 1, skipped, errors)
  else (fs, undone, skipped + 1, errors)

/-- The replay loop: for op_data in reversed(operations_data). -/
def undo_replay (raises : UndoOp → Bool) (fs0 : List String) (ops : List UndoOp) :
    List String × Nat × Nat × Nat :=
  (ops.reverse).foldl (undoStep raises) (fs0, 0, 0, 0)

/-! ### Empty-directory reaper (scan_for_empty_directories and the removal
pass of remove_empty_directories_recursive) -/

/-- A directory subtree: name, plain-file names, subdirectories. -/
inductive Dir where
  | mk (name : String) (files : List String) (subdirs : List Dir)

def Dir.name : Dir → String
  | .mk n _ _ => n

def Dir.files : Dir → List String
  | .mk _ f _ => f

def Dir.subdirs : Dir → List Dir
  | .mk _ _ s => s

/-- Hidden/system file test used by the scan: name starts with a dot or a
tilde. -/
def isHidden (nm : String) : Bool := strStartsWith nm "." || strStartsWith nm "~"

/-- The has_real_content check of scan_for_empty_directories: a non-hidden
file, or a subdirectory not already in the empty set. -/
def hasRealContent (emptySet : List String) (path : String) (files : List String)
    (subs : List Dir) : Bool :=
  files.any (fun f => !(isHidden f)) ||
    subs.any (fun d => !(emptySet.contains (joinPath path d.name)))

mutual
/-- Bottom-up visit of one directory during the scan
(enhanced_file_organizer.py, lines 971-1008): os.walk(topdown=False) reaches
the children first; a directory with no real content joins the empty set.
Scan errors (unreadable directories) are not modelled: they only remove
additions, and the claims proved about this scan survive additions. -/
def scanDir (pp : String → Bool) (parent : String) (d : Dir) (acc : List String) : List String :=
  match d with
  | .mk nm files subs =>
      let path := joinPath parent nm
      let acc1 := scanDirs pp path subs acc
      if pp path then acc1
      else if hasRealContent acc1 path files subs then acc1
      else acc1.concat path

def scanDirs (pp : String → Bool) (parent : String) (ds : List Dir) (acc : List String) :
    List String :=
  match ds with
  | [] => acc
  | d :: rest => scanDirs pp parent rest (scanDir pp parent d acc)
end

/-- The walk of one root (the root directory itself is the last directory
os.walk yields and is subjected to the same emptiness test — the original
file has no root exclusion). -/
def scanRootOrig (pp : String → Bool) (acc : List String)
    (root : String × List String × List Dir) : List String :=
  let path := root.1
  let acc1 := scanDirs pp path root.2.2 acc
  if pp path then acc1
  else if hasRealContent acc1 path root.2.1 root.2.2 then acc1
  else acc1.concat path

/-- scan_for_empty_directories of enhanced_file_organizer.py over a list of
roots given as (root path, files, subdirectories). -/
def scan_for_empty_directories (pp : String → Bool)
    (roots : List (String × List String × List Dir)) : List String :=
  roots.foldl (scanRootOrig pp) []

mutual
/-- Same visit for enhanced_file_organizer_improved.py (lines 762-807),
which adds the guard current_dir != root_path before marking. -/
def scanDirImp (pp : String → Bool) (rootPath parent : String) (d : Dir)
    (acc : List String) : List String :=
  match d with
  | .mk nm files subs =>
      let path := joinPath parent nm
      let acc1 := scanDirsImp pp rootPath path subs acc
      if pp path then acc1
      else if hasRealContent acc1 path files subs then acc1
      else if path == rootPath then acc1
      else acc1.concat path

def scanDirsImp (pp : String → Bool) (rootPath parent : String) (ds : List Dir)
    (acc : List String) : List String :=
  match ds with
  | [] => acc
  | d :: rest => scanDirsImp pp rootPath parent rest (scanDirImp pp rootPath parent d acc)
end

def scanRootImp (pp : String → Bool) (acc : List String)
    (root : String × List String × List Dir) : List String :=
  let path := root.1
  let acc1 := scanDirsImp pp path path root.2.2 acc
  if pp path then acc1
  else if hasRealContent acc1 path root.2.1 root.2.2 then acc1
  else if path == path then acc1
  else acc1.concat path

def scan_for_empty_directories_improved (pp : String → Bool)
    (roots : List (String × List String × List Dir)) : List String :=
  roots.foldl (scanRootImp pp) []

/-! The removal pass.  The filesystem is a flat map from existing directory
paths to their current entry names (files and subdirectories alike, exactly
what os.scandir lists).  os.rmdir deletes the directory and drops its name
from the entry list of its parent. -/

abbrev DirFs := List (String × List String)

def fsLookup : DirFs → String → Option (List String)
  | [], _ => none
  | e :: rest, p => if e.1 = p then some e.2 else fsLookup rest p

def fsRemove : DirFs → String → DirFs
  | [], _ => []
  | e :: rest, p => if e.1 = p then fsRemove rest p else e :: fsRemove rest p

def fsEraseEntry (fs : DirFs) (parent nm : String) : DirFs :=
  fs.map (fun e => if e.1 = parent then (e.1, e.2.erase nm) else e)

/-- One iteration of the removal loop (enhanced_file_organizer.py, lines
1038-1055): if the directory still exists, list it; only when the listing is
empty call os.rmdir.  The result flag says whether a removal happened. -/
def rmdirStep (fs : DirFs) (d : String) : DirFs × Bool :=
  match fsLookup fs d with
  | some [] => (fsEraseEntry (fsRemove fs d) (parentOf d) (nameOf d), true)
  | _ => (fs, false)

/-- The removal loop over the (depth-sorted) candidate list, counting
removals. -/
def remove_pass : DirFs → List String → Nat → DirFs × Nat
  | fs, [], n => (fs, n)
  | fs, d :: ds, n =>
      let r := rmdirStep fs d
      remove_pass r.1 ds (n + (if r.2 then 1 else 0))


/-! ## Supporting lemmas -/

lemma ite_true_ite_or (a b : Bool) :
    (if a = true then true else if b = true then true else false) = (a || b) := by
  cases a <;> cases b <;> rfl

lemma prefixOfB_iff : ∀ (n h : List Char), prefixOfB n h = true ↔ ∃ t, h = n ++ t := by
  intro n
  induction n with
  | nil =>
    intro h
    constructor
    · intro _; exact ⟨h, rfl⟩
    · intro _; rfl
  | cons a as ih =>
    intro h
    cases h with
    | nil => simp [prefixOfB]
    | cons b bs =>
      rw [prefixOfB, Bool.and_eq_true]
      constructor
      · rintro ⟨hab, hpre⟩
        have hab2 : a = b := eq_of_beq hab
        subst hab2
        obtain ⟨t, ht⟩ := (ih bs).mp hpre
        exact ⟨t, by rw [List.cons_append, ht]⟩
      · rintro ⟨t, ht⟩
        rw [List.cons_append] at ht
        injection ht with h1 h2
        subst h1
        exact ⟨by simp, (ih bs).mpr ⟨t, h2⟩⟩

lemma substrB_iff : ∀ (n h : List Char), substrB n h = true ↔ ∃ s t, h = s ++ n ++ t := by
  intro n h
  induction h with
  | nil =>
    simp only [substrB, List.isEmpty_iff]
    constructor
    · rintro rfl; exact ⟨[], [], rfl⟩
    · rintro ⟨s, t, hst⟩
      rcases List.append_eq_nil.mp hst.symm with ⟨h1, h2⟩
      exact (List.append_eq_nil.mp h1).2
  | cons c t ih =>
    rw [substrB, Bool.or_eq_true, prefixOfB_iff, ih]
    constructor
    · rintro (⟨u, hu⟩ | ⟨s, u, hsu⟩)
      · exact ⟨[], u, by simpa using hu⟩
      · exact ⟨c :: s, u, by simp [hsu]⟩
    · rintro ⟨s, u, hsu⟩
      cases s with
      | nil => exact Or.inl ⟨u, by simpa using hsu⟩
      | cons x xs =>
        rw [List.cons_append, List.cons_append] at hsu
        injection hsu with h1 h2
        subst h1
        exact Or.inr ⟨xs, u, h2⟩

lemma strContains_iff (needle hay : String) :
    strContains needle hay = true ↔ ∃ s t, hay.toList = s ++ needle.toList ++ t :=
  substrB_iff needle.toList hay.toList

lemma contains_iff_mem (l : List String) (x : String) : l.contains x = true ↔ x ∈ l :=
  List.elem_iff

/-! ## Claim theorems -/

/-- C4 counterexample: the path /home/bootstrap is reported protected by
is_protected_path although none of its components equals (case
insensitively) a denylist entry or a generic system-indicator token — the
denylist entry Boot merely occurs as a substring of the component bootstrap.
This refutes the claim that protection holds only on a component match. -/
theorem protected_substring_counterexample :
    is_protected_path SYSTEM_PROTECTED "/home/bootstrap" = true
    ∧ (pathParts (strToLower "/home/bootstrap")).all
        (fun comp => SYSTEM_PROTECTED.all (fun d => !(comp == strToLower d))) = true
    ∧ (pathParts (strToLower "/home/bootstrap")).all
        (fun comp => system_indicators.all (fun ind => !(comp == ind))) = true := by
  decide

/-- C4 (amended): is_protected_path returns true exactly when some denylist
entry occurs case-insensitively as a substring of the whole path, or some
component of the lowercased path equals one of the generic system-indicator
tokens.  (The component-equality reading of the denylist check is refuted by
the counterexample.) -/
theorem is_protected_path_characterization (denylist : List String) (p : String) :
    is_protected_path denylist p = true ↔
      (∃ prot ∈ denylist,
        ∃ s t, (strToLower p).toList = s ++ (strToLower prot).toList ++ t)
      ∨ (∃ ind ∈ system_indicators, ind ∈ pathParts (strToLower p)) := by
  have key : is_protected_path denylist p =
      (denylist.any (fun prot => strContains (strToLower prot) (strToLower p))
        || system_indicators.any (fun ind => (pathParts (strToLower p)).contains ind)) :=
    ite_true_ite_or
      (denylist.any (fun prot => strContains (strToLower prot) (strToLower p)))
      (system_indicators.any (fun ind => (pathParts (strToLower p)).contains ind))
  rw [key, Bool.or_eq_true, List.any_eq_true, List.any_eq_true]
  constructor
  · rintro (⟨prot, hmem, hc⟩ | ⟨ind, hmem, hc⟩)
    · exact Or.inl ⟨prot, hmem, (strContains_iff _ _).mp hc⟩
    · exact Or.inr ⟨ind, hmem, (contains_iff_mem _ _).mp hc⟩
  · rintro (⟨prot, hmem, hc⟩ | ⟨ind, hmem, hc⟩)
    · exact Or.inl ⟨prot, hmem, (strContains_iff _ _).mpr hc⟩
    · exact Or.inr ⟨ind, hmem, (contains_iff_mem _ _).mpr hc⟩

/-- C8: the persisted duplicate map holds exactly the pairs of the in-memory
duplicate map whose path list has at least two elements; a hash with a
single path is never written out. -/
theorem duplicate_map_persist_iff (m : List (String × List String)) (k : String)
    (v : List String) :
    (k, v) ∈ save_duplicate_map m ↔ (k, v) ∈ m ∧ 2 ≤ v.length := by
  unfold save_duplicate_map
  rw [List.mem_filter]
  constructor
  · rintro ⟨h1, h2⟩
    refine ⟨h1, ?_⟩
    simpa using h2
  · rintro ⟨h1, h2⟩
    refine ⟨h1, ?_⟩
    simpa using h2

/-- C3 failing input: a root source directory /r that exists and has no
entries at all.  The original scan_for_empty_directories includes the root
itself in its result set, and the removal loop then rmdirs it; the improved
variant excludes the root.  This evaluates the code at the failing input. -/
theorem empty_root_removed_eval :
    scan_for_empty_directories (is_protected_path SYSTEM_PROTECTED) [("/r", [], [])] = ["/r"]
    ∧ remove_pass [("/r", [])] ["/r"] 0 = ([], 1)
    ∧ scan_for_empty_directories_improved (is_protected_path SYSTEM_PROTECTED)
        [("/r", [], [])] = [] := by
  refine ⟨?_, ?_, ?_⟩ <;> rfl

def guessNone : String → Option (String × String) := fun _ => none

def meta5KB : FileMeta := ⟨5120, 2024, 3, some (2024, 3), true⟩

/-- C6 evaluated at the failing input: a 5KB file (/s/a.txt, 5120 bytes)
with junk threshold 10KB.  The original process_file routes it to the Junk
bucket under all four modes, but the improved process_files_batch /
get_destination_path path never consults the junk threshold and routes it to
the extension bucket /t/txt under BY_EXTENSION. -/
theorem junk_precedence_eval :
    process_file_dest guessNone 10 "/t" OrganizationMode.by_type "/s/a.txt" meta5KB
      = "/t/Junk/a.txt"
    ∧ process_file_dest guessNone 10 "/t" OrganizationMode.by_date "/s/a.txt" meta5KB
      = "/t/Junk/a.txt"
    ∧ process_file_dest guessNone 10 "/t" OrganizationMode.by_size "/s/a.txt" meta5KB
      = "/t/Junk/a.txt"
    ∧ process_file_dest guessNone 10 "/t" OrganizationMode.by_extension "/s/a.txt" meta5KB
      = "/t/Junk/a.txt"
    ∧ get_destination_path guessNone "/t" OrganizationMode.by_extension "/s/a.txt" meta5KB
      = "/t/txt/a.txt" := by
  refine ⟨?_, ?_, ?_, ?_, ?_⟩ <;> rfl


lemma resolveLoop_step (ex : String → Bool) (base ext2 : String) (n counter : Nat)
    (dest : String) :
    resolveLoop ex base ext2 (n + 1) counter dest =
      if ex dest then
        resolveLoop ex base ext2 n (counter + 1) (base ++ "_(" ++ Nat.repr counter ++ ")" ++ ext2)
      else dest := rfl

lemma renameLoop_spec (ex : String → Bool) (dest ts : String) :
    ∀ (fuel counter : Nat), counter + fuel = 1001 →
      ((∀ k, counter ≤ k → k ≤ 1000 → ex (renameCandidate dest k) = true) →
        renameLoop ex dest ts fuel counter = renameFallback dest ts)
      ∧ (∀ m, counter ≤ m → m ≤ 1000 → ex (renameCandidate dest m) = false →
          (∀ k, counter ≤ k → k < m → ex (renameCandidate dest k) = true) →
          renameLoop ex dest ts fuel counter = renameCandidate dest m) := by
  intro fuel
  induction fuel with
  | zero =>
    intro counter hsum
    constructor
    · intro _; rfl
    · intro m hm1 hm2 _ _
      omega
  | succ n ih =>
    intro counter hsum
    constructor
    · intro hall
      have hexc : ex (renameCandidate dest counter) = true := hall counter le_rfl (by omega)
      simp only [renameLoop, hexc, if_true]
      by_cases hgt : counter + 1 > 1000
      · rw [if_pos hgt]
      · rw [if_neg hgt]
        exact (ih (counter + 1) (by omega)).1 (fun k hk1 hk2 => hall k (by omega) hk2)
    · intro m hm1 hm2 hmf hprev
      by_cases hcm : counter = m
      · subst hcm
        simp only [renameLoop, hmf]
        simp
      · have hlt : counter < m := lt_of_le_of_ne hm1 hcm
        have hexc : ex (renameCandidate dest counter) = true := hprev counter le_rfl hlt
        simp only [renameLoop, hexc, if_true]
        have hgt : ¬ (counter + 1 > 1000) := by omega
        rw [if_neg hgt]
        exact (ih (counter + 1) (by omega)).2 m (by omega) hm2 hmf
          (fun k hk1 hk2 => hprev k (by omega) hk2)

/-- C5 counterexample: with exactly /t/a.txt existing, the improved
resolve_file_conflict returns /t/a_(1).txt, although the first probe of the
claimed " (1)", " (2)", ... sequence, /t/a (1).txt, does not exist — so
resolution does not probe the claimed suffixes and does not return the first
non-existing path of that sequence. -/
theorem resolve_conflict_format_counterexample :
    resolve_file_conflict (fun s => s == "/t/a.txt") "/t/a.txt" = "/t/a_(1).txt"
    ∧ ((fun s => s == "/t/a.txt") "/t/a (1).txt") = false
    ∧ ("/t/a_(1).txt" == "/t/a (1).txt") = false := by
  refine ⟨rfl, rfl, rfl⟩

/-- C5 (amended): in enhanced_file_organizer.generate_unique_filename the
RENAME policy probes " (1)", " (2)", ... sequentially, returns the first
non-existing candidate among the first 1000 probes, and after 1000 probes
falls back to the timestamp-suffixed name, so it terminates at any collision
depth; the improved resolve_file_conflict instead probes "_(1)", "_(2)", ...
and returns the first non-existing candidate, with no timestamp fallback. -/
theorem rename_resolution_spec (ex : String → Bool) (mr : Bool) (ts dest : String) :
    (∀ m : Nat, 1 ≤ m → m ≤ 1000 → ex (renameCandidate dest m) = false →
      (∀ k, 1 ≤ k → k < m → ex (renameCandidate dest k) = true) →
      generate_unique_filename ex mr ts dest DuplicateHandling.rename
        = Except.ok (some (renameCandidate dest m)))
    ∧ ((∀ k, 1 ≤ k → k ≤ 1000 → ex (renameCandidate dest k) = true) →
      generate_unique_filename ex mr ts dest DuplicateHandling.rename
        = Except.ok (some (renameFallback dest ts)))
    ∧ (∀ (ex2 : String → Bool) (d2 : String), ex2 d2 = true →
      ex2 ((osSplitext d2).1 ++ "_(" ++ Nat.repr 1 ++ ")" ++ (osSplitext d2).2) = false →
      resolve_file_conflict ex2 d2
        = (osSplitext d2).1 ++ "_(" ++ Nat.repr 1 ++ ")" ++ (osSplitext d2).2) := by
  refine ⟨?_, ?_, ?_⟩
  · intro m h1 h2 h3 h4
    have hc := (renameLoop_spec ex dest ts 1000 1 (by omega)).2 m h1 h2 h3 h4
    simp only [generate_unique_filename, hc]
  · intro hall
    have hc := (renameLoop_spec ex dest ts 1000 1 (by omega)).1 hall
    simp only [generate_unique_filename, hc]
  · intro ex2 d2 h1 h2
    have e1 : resolve_file_conflict ex2 d2
        = resolveLoop ex2 (osSplitext d2).1 (osSplitext d2).2 1000000 1 d2 := rfl
    rw [e1, show (1000000 : Nat) = 999999 + 1 from rfl, resolveLoop_step, h1]
    rw [if_pos rfl, show (999999 : Nat) = 999998 + 1 from rfl, resolveLoop_step, h2]
    rw [if_neg (by simp)]

/-- Witness for C5: with no sibling existing the first probe is returned;
with every sibling existing the timestamp fallback is returned; the improved
resolver moves /t/b.txt to /t/b_(1).txt. -/
theorem rename_resolution_spec_witness :
    generate_unique_filename (fun _ => false) false "TS" "/t/a.txt" DuplicateHandling.rename
      = Except.ok (some (renameCandidate "/t/a.txt" 1))
    ∧ generate_unique_filename (fun _ => true) false "TS" "/t/a.txt" DuplicateHandling.rename
      = Except.ok (some (renameFallback "/t/a.txt" "TS"))
    ∧ resolve_file_conflict (fun s => s == "/t/b.txt") "/t/b.txt"
      = (osSplitext "/t/b.txt").1 ++ "_(" ++ Nat.repr 1 ++ ")" ++ (osSplitext "/t/b.txt").2 :=
  ⟨(rename_resolution_spec (fun _ => false) false "TS" "/t/a.txt").1 1 (by omega) (by omega)
      rfl (fun k hk1 hk2 => ((Nat.lt_irrefl k) (Nat.lt_of_lt_of_le hk2 hk1)).elim),
   (rename_resolution_spec (fun _ => true) false "TS" "/t/a.txt").2.1 (fun k h1 h2 => rfl),
   (rename_resolution_spec (fun _ => true) false "TS" "/t/a.txt").2.2
      (fun s => s == "/t/b.txt") "/t/b.txt" rfl rfl⟩

/-- C1: a move_file_safe call that raises one of the caught I/O error
classes (OSError, PermissionError, shutil.Error) returns False, increments
the errors counter by exactly one, appends nothing to the journal, and
leaves the moved, skipped and total_size counters unchanged. -/
theorem move_io_failure_no_partial_update (st : OrganizerState) (source destination : String)
    (dh : DuplicateHandling) (env : MoveEnv)
    (h : classify_move env destination dh = MoveOutcome.raised) :
    (move_file_safe st source destination dh env).1 = false
    ∧ (move_file_safe st source destination dh env).2.stats.errors = st.stats.errors + 1
    ∧ (move_file_safe st source destination dh env).2.operations_log = st.operations_log
    ∧ (move_file_safe st source destination dh env).2.stats.moved = st.stats.moved
    ∧ (move_file_safe st source destination dh env).2.stats.skipped = st.stats.skipped
    ∧ (move_file_safe st source destination dh env).2.stats.total_size = st.stats.total_size := by
  cases hm : env.mkdirParentRaises with
  | true => simp [move_file_safe, hm, bumpErrors]
  | false =>
    cases hr : resolveConflict env destination dh with
    | error e => simp [move_file_safe, hm, hr, bumpErrors]
    | ok o =>
      cases o with
      | none =>
        exfalso
        simp [classify_move, hm, hr] at h
      | some dest =>
        cases hs : env.sizeResult with
        | none => simp [move_file_safe, hm, hr, hs, bumpErrors]
        | some size =>
          cases hv : env.moveRaises with
          | true => simp [move_file_safe, hm, hr, hs, hv, bumpErrors]
          | false =>
            exfalso
            simp [classify_move, hm, hr, hs, hv] at h

def envMkdirFail : MoveEnv := ⟨true, false, fun _ => false, false, "TS", none, none, false, "T0"⟩

/-- Witness for C1 at a concrete raising move (the destination-parent mkdir
raises). -/
theorem move_io_failure_no_partial_update_witness :
    classify_move envMkdirFail "/t/a.txt" DuplicateHandling.rename = MoveOutcome.raised
    ∧ (move_file_safe initState "/s/a.txt" "/t/a.txt" DuplicateHandling.rename envMkdirFail).1
        = false
    ∧ (move_file_safe initState "/s/a.txt" "/t/a.txt" DuplicateHandling.rename
        envMkdirFail).2.stats.errors = initState.stats.errors + 1
    ∧ (move_file_safe initState "/s/a.txt" "/t/a.txt" DuplicateHandling.rename
        envMkdirFail).2.operations_log = initState.operations_log :=
  ⟨rfl,
   (move_io_failure_no_partial_update initState "/s/a.txt" "/t/a.txt"
      DuplicateHandling.rename envMkdirFail rfl).1,
   (move_io_failure_no_partial_update initState "/s/a.txt" "/t/a.txt"
      DuplicateHandling.rename envMkdirFail rfl).2.1,
   (move_io_failure_no_partial_update initState "/s/a.txt" "/t/a.txt"
      DuplicateHandling.rename envMkdirFail rfl).2.2.1⟩

lemma move_step_invariant (st : OrganizerState) (j : MoveJob)
    (h : st.stats.moved = st.operations_log.length) :
    (move_file_safe st j.source j.destination j.dh j.env).2.stats.moved
      = (move_file_safe st j.source j.destination j.dh j.env).2.operations_log.length := by
  cases hm : j.env.mkdirParentRaises with
  | true => simp [move_file_safe, hm, bumpErrors, h]
  | false =>
    cases hr : resolveConflict j.env j.destination j.dh with
    | error e => simp [move_file_safe, hm, hr, bumpErrors, h]
    | ok o =>
      cases o with
      | none => simp [move_file_safe, hm, hr, bumpSkipped, h]
      | some dest =>
        cases hs : j.env.sizeResult with
        | none => simp [move_file_safe, hm, hr, hs, bumpErrors, h]
        | some size =>
          cases hv : j.env.moveRaises with
          | true => simp [move_file_safe, hm, hr, hs, hv, bumpErrors, h]
          | false =>
            simp only [move_file_safe, hm, hr, hs, hv]
            simp only [Bool.false_eq_true, if_false]
            repeat' split
            all_goals simp [bumpMoved, bumpDuplicates, h]

/-- C7: after any sequence of move attempts starting from the initial run
state, the moved counter equals the length of the in-memory journal — each
successful move appends exactly one Operation and increments moved by one,
and skips and errors change neither. -/
theorem moved_matches_journal_length (jobs : List MoveJob) :
    (run_moves initState jobs).stats.moved
      = (run_moves initState jobs).operations_log.length := by
  suffices h : ∀ st : OrganizerState, st.stats.moved = st.operations_log.length →
      (run_moves st jobs).stats.moved = (run_moves st jobs).operations_log.length by
    exact h initState rfl
  induction jobs with
  | nil => intro st h; exact h
  | cons j js ih =>
    intro st h
    exact ih ((move_file_safe st j.source j.destination j.dh j.env).2)
      (move_step_invariant st j h)


lemma dmLookup_insertAppend (m : List (String × List String)) (k : String) (v : String) :
    dmLookup (dmInsertAppend m k v) k = some (((dmLookup m k).getD []) ++ [v]) := by
  induction m with
  | nil => simp [dmInsertAppend, dmLookup]
  | cons e rest ih =>
    cases he : e.1 == k with
    | true => simp [dmInsertAppend, dmLookup, he]
    | false => simp [dmInsertAppend, dmLookup, he, ih]

/-- C9 (amended): for every successful move the journal gains exactly one
entry; its recorded hash equals the computed source hash when the policy is
RENAME, REPLACE or MERGE_TO_DUPLICATES, and None when the policy is SKIP
(the hash step is conditioned on the policy); the duplicate map receives the
destination exactly when that recorded hash is non-null. -/
theorem moved_entry_hash_spec (st : OrganizerState) (source destination : String)
    (dh : DuplicateHandling) (env : MoveEnv)
    (h : classify_move env destination dh = MoveOutcome.movedFile) :
    ∃ op : FileOperation,
      (move_file_safe st source destination dh env).2.operations_log
        = st.operations_log ++ [op]
      ∧ op.file_hash = (if dh = DuplicateHandling.skip then none else env.hashResult)
      ∧ (pyTruthy op.file_hash = true →
          ∃ l, dmLookup (move_file_safe st source destination dh env).2.duplicate_map
                (op.file_hash.getD "") = some l ∧ op.destination ∈ l)
      ∧ (pyTruthy op.file_hash = false →
          (move_file_safe st source destination dh env).2.duplicate_map
            = st.duplicate_map) := by
  cases hm : env.mkdirParentRaises with
  | true => exfalso; simp [classify_move, hm] at h
  | false =>
    cases hr : resolveConflict env destination dh with
    | error e => exfalso; simp [classify_move, hm, hr] at h
    | ok o =>
      cases o with
      | none => exfalso; simp [classify_move, hm, hr] at h
      | some dest =>
        cases hs : env.sizeResult with
        | none => exfalso; simp [classify_move, hm, hr, hs] at h
        | some size =>
          cases hv : env.moveRaises with
          | true => exfalso; simp [classify_move, hm, hr, hs, hv] at h
          | false =>
            refine ⟨⟨source, dest, "move", env.opTimestamp, size,
              if dh = DuplicateHandling.skip then none else env.hashResult⟩, ?_, rfl, ?_, ?_⟩
            · cases hph : pyTruthy (if dh = DuplicateHandling.skip then none
                  else env.hashResult) with
              | true => simp [move_file_safe, hm, hr, hs, hv, hph]
              | false => simp [move_file_safe, hm, hr, hs, hv, hph]
            · intro hpt
              simp only [move_file_safe, hm, hr, hs, hv, Bool.false_eq_true, if_false]
              simp only [hpt, if_true]
              rw [dmLookup_insertAppend]
              exact ⟨_, rfl, by simp⟩
            · intro hpf
              simp only [move_file_safe, hm, hr, hs, hv, Bool.false_eq_true, if_false]
              simp [hpf]

def envSkipMove : MoveEnv :=
  ⟨false, false, fun _ => false, false, "TS", some "deadbeef", some 77, false, "T0"⟩

/-- C9 counterexample: under the SKIP policy a file moved to a fresh
destination is journaled with no hash and the duplicate map is not updated,
although the source hash (here deadbeef) was available — the hash
computation is conditioned on the policy, not independent of it. -/
theorem skip_policy_hash_counterexample :
    (move_file_safe initState "/s/a.txt" "/t/a.txt" DuplicateHandling.skip envSkipMove).1 = true
    ∧ (move_file_safe initState "/s/a.txt" "/t/a.txt" DuplicateHandling.skip
        envSkipMove).2.operations_log
      = [⟨"/s/a.txt", "/t/a.txt", "move", "T0", 77, none⟩]
    ∧ (move_file_safe initState "/s/a.txt" "/t/a.txt" DuplicateHandling.skip
        envSkipMove).2.duplicate_map = []
    ∧ envSkipMove.hashResult = some "deadbeef" := by
  refine ⟨rfl, rfl, rfl, rfl⟩

def envRenameMove : MoveEnv :=
  ⟨false, false, fun _ => false, false, "TS", some "cafe", some 5, false, "T1"⟩

/-- Witness for C9 at a concrete successful RENAME-policy move. -/
theorem moved_entry_hash_spec_witness :
    classify_move envRenameMove "/t/c.txt" DuplicateHandling.rename = MoveOutcome.movedFile
    ∧ ∃ op : FileOperation,
        (move_file_safe initState "/s/c.txt" "/t/c.txt" DuplicateHandling.rename
          envRenameMove).2.operations_log = initState.operations_log ++ [op]
        ∧ op.file_hash = (if DuplicateHandling.rename = DuplicateHandling.skip then none
            else envRenameMove.hashResult) := by
  refine ⟨rfl, ?_⟩
  obtain ⟨op, h1, h2, h3, h4⟩ := moved_entry_hash_spec initState "/s/c.txt" "/t/c.txt"
    DuplicateHandling.rename envRenameMove rfl
  exact ⟨op, h1, h2⟩

/-- C2: during undo replay, an entry whose original source location is
occupied is skipped without any filesystem change; an entry whose recorded
destination no longer exists is skipped; the journal is replayed in reverse
order (the last appended entry is processed first); and an entry whose
restore raises increments only the error tally while the fold continues with
the remaining entries. -/
theorem undo_replay_spec (raises : UndoOp → Bool) :
    (∀ (fs : List String) (u s e : Nat) (op : UndoOp),
      op.destination ∈ fs → op.source ∈ fs →
      undoStep raises (fs, u, s, e) op = (fs, u, s + 1, e))
    ∧ (∀ (fs : List String) (u s e : Nat) (op : UndoOp),
      op.destination ∉ fs →
      undoStep raises (fs, u, s, e) op = (fs, u, s + 1, e))
    ∧ (∀ (fs0 : List String) (ops : List UndoOp) (op : UndoOp),
      undo_replay raises fs0 (ops ++ [op])
        = ops.reverse.foldl (undoStep raises) (undoStep raises (fs0, 0, 0, 0) op))
    ∧ (∀ (fs : List String) (u s e : Nat) (op : UndoOp),
      op.destination ∈ fs → op.source ∉ fs →
      raises op = true →
      undoStep raises (fs, u, s, e) op = (fs, u, s, e + 1)) := by
  refine ⟨?_, ?_, ?_, ?_⟩
  · intro fs u s e op h1 h2
    simp [undoStep, h1, h2]
  · intro fs u s e op h1
    simp [undoStep, h1]
  · intro fs0 ops op
    simp [undo_replay, List.reverse_append]
  · intro fs u s e op h1 h2 h3
    simp [undoStep, h1, h2, h3]

/-- Witness for C2: the four replay behaviours at concrete journal entries
and filesystem states. -/
theorem undo_replay_spec_witness :
    undoStep (fun _ => true) (["/t/a.txt", "/s/a.txt"], 0, 0, 0) ⟨"/s/a.txt", "/t/a.txt"⟩
      = (["/t/a.txt", "/s/a.txt"], 0, 1, 0)
    ∧ undoStep (fun _ => true) ([], 0, 0, 0) ⟨"/s/a.txt", "/t/a.txt"⟩ = ([], 0, 1, 0)
    ∧ undo_replay (fun _ => true) [] ([] ++ [⟨"/s/a.txt", "/t/a.txt"⟩])
      = ([] : List UndoOp).reverse.foldl (undoStep (fun _ => true))
          (undoStep (fun _ => true) ([], 0, 0, 0) ⟨"/s/a.txt", "/t/a.txt"⟩)
    ∧ undoStep (fun _ => true) (["/t/b.txt"], 0, 0, 0) ⟨"/s/b.txt", "/t/b.txt"⟩
      = (["/t/b.txt"], 0, 0, 1) :=
  ⟨(undo_replay_spec (fun _ => true)).1 _ 0 0 0 _ (by decide) (by decide),
   (undo_replay_spec (fun _ => true)).2.1 _ 0 0 0 _ (by decide),
   (undo_replay_spec (fun _ => true)).2.2.1 [] [] _,
   (undo_replay_spec (fun _ => true)).2.2.2 _ 0 0 0 _ (by decide) (by decide) rfl⟩


lemma fsRemove_cons (e : String × List String) (rest : DirFs) (p : String) :
    fsRemove (e :: rest) p = if e.1 = p then fsRemove rest p else e :: fsRemove rest p := rfl

lemma fsEraseEntry_cons (e : String × List String) (rest : DirFs) (par nm : String) :
    fsEraseEntry (e :: rest) par nm
      = (if e.1 = par then (e.1, e.2.erase nm) else e) :: fsEraseEntry rest par nm := rfl

lemma fsLookup_fsRemove (fs : DirFs) (p q : String) :
    fsLookup (fsRemove fs p) q = if p = q then none else fsLookup fs q := by
  induction fs with
  | nil => by_cases h : p = q <;> simp [fsRemove, fsLookup, h]
  | cons e rest ih =>
    rw [fsRemove_cons]
    by_cases hep : e.1 = p
    · by_cases hpq : p = q
      · subst hpq
        simp [fsLookup, hep, ih]
      · simp [fsLookup, hep, hpq, ih]
    · by_cases heq : e.1 = q
      · subst heq
        have hpq : ¬ p = e.1 := fun h => hep h.symm
        simp [fsLookup, hep, hpq]
      · simp [fsLookup, hep, heq, ih]

lemma fsLookup_fsEraseEntry (fs : DirFs) (par nm q : String) :
    fsLookup (fsEraseEntry fs par nm) q
      = (fsLookup fs q).map (fun l => if q = par then l.erase nm else l) := by
  induction fs with
  | nil => simp [fsEraseEntry, fsLookup]
  | cons e rest ih =>
    rw [fsEraseEntry_cons]
    by_cases heq : e.1 = q
    · subst heq
      by_cases hep : e.1 = par <;> simp [fsLookup, hep]
    · by_cases hep : e.1 = par
      · have hpq : ¬ par = q := fun h => heq (hep.trans h)
        simp [fsLookup, hep, heq, hpq, ih]
      · simp [fsLookup, hep, heq, ih]

lemma fsLookup_mem (fs : DirFs) (q : String) (l : List String)
    (h : fsLookup fs q = some l) : (q, l) ∈ fs := by
  induction fs with
  | nil => simp [fsLookup] at h
  | cons e rest ih =>
    obtain ⟨a, b⟩ := e
    by_cases h1 : a = q
    · subst h1
      simp [fsLookup] at h
      subst h
      exact List.mem_cons_self _ _
    · simp [fsLookup, h1] at h
      exact List.mem_cons_of_mem _ (ih h)

lemma all_fsEraseEntry (fs : DirFs) (par nm : String) (P : String → Bool) :
    (fsEraseEntry fs par nm).all (fun ent => P ent.1) = fs.all (fun ent => P ent.1) := by
  induction fs with
  | nil => rfl
  | cons e rest ih =>
    rw [fsEraseEntry_cons, List.all_cons, List.all_cons, ih]
    congr 1
    by_cases hep : e.1 = par <;> simp [hep]

lemma all_fsRemove (fs : DirFs) (x : String) (P : String → Bool)
    (h : fs.all (fun ent => P ent.1) = true) :
    (fsRemove fs x).all (fun ent => P ent.1) = true := by
  induction fs with
  | nil => rfl
  | cons e rest ih =>
    rw [List.all_cons, Bool.and_eq_true] at h
    rw [fsRemove_cons]
    by_cases hex : e.1 = x
    · rw [if_pos hex]
      exact ih h.2
    · rw [if_neg hex, List.all_cons, Bool.and_eq_true]
      exact ⟨h.1, ih h.2⟩

lemma keysPred_rmdirStep (fs : DirFs) (x : String) (P : String → Bool)
    (h : fs.all (fun ent => P ent.1) = true) :
    (rmdirStep fs x).1.all (fun ent => P ent.1) = true := by
  unfold rmdirStep
  cases hl : fsLookup fs x with
  | none => simpa using h
  | some l =>
    cases l with
    | nil =>
      simp only
      rw [all_fsEraseEntry]
      exact all_fsRemove fs x P h
    | cons a as => simpa using h

lemma remove_pass_preserves (d e : String) :
    ∀ (dirs : List String) (fs : DirFs) (n : Nat),
      (∃ L, fsLookup fs d = some L ∧ e ∈ L) →
      fs.all (fun ent => !(parentOf ent.1 == d && nameOf ent.1 == e)) = true →
      ∃ L2, fsLookup (remove_pass fs dirs n).1 d = some L2 ∧ e ∈ L2 := by
  intro dirs
  induction dirs with
  | nil =>
    intro fs n hL _
    simpa [remove_pass] using hL
  | cons x xs ih =>
    intro fs n hL hinv
    obtain ⟨L, hLk, heL⟩ := hL
    simp only [remove_pass]
    apply ih
    · unfold rmdirStep
      cases hl : fsLookup fs x with
      | none => exact ⟨L, hLk, heL⟩
      | some l =>
        cases l with
        | cons a as => exact ⟨L, hLk, heL⟩
        | nil =>
          have hxd : ¬ (x = d) := by
            intro heq
            subst heq
            rw [hl] at hLk
            injection hLk with hLe
            subst hLe
            exact absurd heL (List.not_mem_nil e)
          have hx_mem : (x, ([] : List String)) ∈ fs := fsLookup_mem fs x [] hl
          have hnx := List.all_eq_true.mp hinv _ hx_mem
          simp only
          rw [fsLookup_fsEraseEntry, fsLookup_fsRemove, if_neg hxd, hLk]
          simp only [Option.map_some']
          by_cases hpd : d = parentOf x
          · have hne : ¬ (nameOf x = e) := by
              intro hnme
              simp [← hpd, hnme] at hnx
            rw [if_pos hpd]
            exact ⟨_, rfl, (List.mem_erase_of_ne (fun hh => hne hh.symm)).mpr heL⟩
          · rw [if_neg hpd]
            exact ⟨L, rfl, heL⟩
    · exact keysPred_rmdirStep fs x
        (fun z => !(parentOf z == d && nameOf z == e)) hinv

/-- C10: a directory whose entries are all hidden files is classified empty
by the original scan; the removal loop calls rmdir only on a directory whose
listing is empty at that moment (the removed directory had no entries of any
kind); consequently a directory holding an entry that is not itself an
existing directory — such as a hidden file — survives every removal pass
with that entry intact. -/
theorem hidden_only_dir_not_removed :
    (∀ (pp : String → Bool) (parent nm : String) (files : List String) (acc : List String),
      files.all isHidden = true → pp (joinPath parent nm) = false →
      scanDir pp parent (Dir.mk nm files []) acc = acc.concat (joinPath parent nm))
    ∧ (∀ (fs : DirFs) (d : String), (rmdirStep fs d).2 = true → fsLookup fs d = some [])
    ∧ (∀ (dirs : List String) (fs : DirFs) (n : Nat) (d e : String) (L : List String),
      fsLookup fs d = some L → e ∈ L →
      fs.all (fun ent => !(parentOf ent.1 == d && nameOf ent.1 == e)) = true →
      ∃ L2, fsLookup (remove_pass fs dirs n).1 d = some L2 ∧ e ∈ L2) := by
  refine ⟨?_, ?_, ?_⟩
  · intro pp parent nm files acc hhid hpp
    have hno : hasRealContent acc (joinPath parent nm) files [] = false := by
      simp only [hasRealContent, List.any_nil, Bool.or_false]
      rw [List.any_eq_false]
      intro f hf
      simp [List.all_eq_true.mp hhid f hf]
    simp only [scanDir, scanDirs, hpp, hno]
    simp
  · intro fs d h
    unfold rmdirStep at h
    cases hl : fsLookup fs d with
    | none => rw [hl] at h; simp at h
    | some l =>
      cases l with
      | nil => rfl
      | cons a as => rw [hl] at h; simp at h
  · intro dirs fs n d e L h1 h2 h3
    exact remove_pass_preserves d e dirs fs n ⟨L, h1, h2⟩ h3

/-- Witness for C10: the directory /r/sub containing only the hidden file .h
is scanned as empty, yet it survives the removal pass with .h intact, and a
removal only ever happens on an empty listing (here /x). -/
theorem hidden_only_dir_not_removed_witness :
    scanDir (is_protected_path SYSTEM_PROTECTED) "/r" (Dir.mk "sub" [".h"] []) []
      = ([] : List String).concat (joinPath "/r" "sub")
    ∧ fsLookup [("/x", ([] : List String))] "/x" = some []
    ∧ (∃ L2, fsLookup (remove_pass [("/r/sub", [".h"]), ("/r", ["sub"])] ["/r/sub"] 0).1
          "/r/sub" = some L2 ∧ ".h" ∈ L2) :=
  ⟨hidden_only_dir_not_removed.1 (is_protected_path SYSTEM_PROTECTED) "/r" "sub" [".h"] []
      (by decide) (by decide),
   hidden_only_dir_not_removed.2.1 [("/x", ([] : List String))] "/x" (by decide),
   hidden_only_dir_not_removed.2.2 ["/r/sub"] [("/r/sub", [".h"]), ("/r", ["sub"])] 0
      "/r/sub" ".h" [".h"] rfl (by decide) (by decide)⟩

end FileOrganizer
